import Mathlib

/-!
# Verification of the bamboo core: URI router and JSON data binding

This file is a shallow embedding, in Lean 4, of the two core subsystems of the
bamboo micro web framework:

* the URI router (`bamboo/router.py`: `Router.register`, `Router.validate`,
  `Router.search_uris`), embedded directly from the source;
* the location matchers and the duplicate-URI test (`bamboo/location.py`),
  which are not part of the provided sources and are therefore modelled from
  the design specification (sections 4.1 and 4.2);
* the JSON data-binding engine (`bamboo/api.py` `JsonApiData`), likewise not
  part of the provided sources; it is modelled from the design specification
  (sections 4.3 and 4.4), with the field-presence semantics pinned by the
  repository's own tests (`src/test/api/test_json_api_data.py`).

Handler identities (`Type[Endpoint]` values in the source) are opaque to the
router; they are represented by natural numbers.
-/

/-- Opaque handler identity, standing for a `Type[Endpoint]` class object.
The router never inspects handlers; it only stores and compares them
(Python `is` on class objects, which is equality of identities). -/
abbrev Endpoint := Nat

/-- Modelled from the spec: `bamboo/location.py` is not among the provided
sources.  Section 4.2 requires a closed set of flexible locators:
an any-string locator accepting any non-empty segment, and an ASCII-digit
locator of a fixed length `n` accepting exactly `n` ASCII digits
(`StringLocation` / `AnyStringLocation` and `NumLocation` /
`AsciiDigitLocation` in the source's import lists). -/
inductive FlexibleLocation where
  | anyString : FlexibleLocation
  | digits : Nat → FlexibleLocation
deriving DecidableEq, Repr

/-- Modelled from the spec: the `is_valid(segment) -> bool` predicate of a
flexible locator (section 4.2): the any-string locator accepts any non-empty
segment; the digit locator of length `n` accepts iff the segment is exactly
`n` characters, all ASCII digits. -/
def FlexibleLocation.is_valid : FlexibleLocation → String → Bool
  | .anyString, s => !s.isEmpty
  | .digits n, s => s.length == n && s.toList.all Char.isDigit

/-- One segment of a URI pattern: either a literal string or a flexible
locator (spec section 3, "Path Pattern"). -/
inductive Loc where
  | lit : String → Loc
  | flex : FlexibleLocation → Loc
deriving DecidableEq, Repr

/-- A URI pattern: the ordered sequence of its segments (`Uri_t` in the
source). -/
abbrev Uri_t := List Loc

/-- Modelled from the spec: `is_flexible_location` classifies a single
segment pattern (used by `is_flexible_uri` and the router). -/
def is_flexible_location : Loc → Bool
  | .flex _ => true
  | .lit _ => false

/-- Modelled from the spec: `is_flexible_uri` from `bamboo/location.py`
(not in the provided sources) — a pattern is flexible iff it contains at
least one flexible locator segment (spec section 4.1: "if it contains any
flexible segment it is additionally indexed in a secondary list"). -/
def is_flexible_uri (u : Uri_t) : Bool := u.any is_flexible_location

/-- Modelled from the spec: `is_duplicated_uri` from `bamboo/location.py`
(not in the provided sources).  Spec section 4.1: two patterns of equal
segment count are ambiguous if, for every segment position, either the
literals are equal, or at least one side is a flexible locator (a flexible
locator is always presumed to collide).  Patterns of unequal segment counts
are never ambiguous (spec section 9, open question: only same-length
collisions are guarded). -/
def is_duplicated_uri (u1 u2 : Uri_t) : Bool :=
  u1.length == u2.length &&
  (u1.zip u2).all fun p =>
    is_flexible_location p.1 || is_flexible_location p.2 || decide (p.1 = p.2)

/-- Exception raised by `Router.register` on an ambiguous pattern
(`DuplicatedUriRegisteredError` in `bamboo/router.py`). -/
structure DuplicatedUriRegisteredError where
  msg : String
deriving DecidableEq, Repr

/-- The router state (`Router.__init__`): the pattern-to-handler table
`uri2endpoint` (a Python `dict`, i.e. an insertion-ordered map with unique
keys, embedded as an association list) and the flexible-patterns list
`uris_flexible`. -/
structure Router where
  uri2endpoint : List (Uri_t × Endpoint)
  uris_flexible : List Uri_t
deriving DecidableEq, Repr

/-- The empty router produced by `Router.__init__`. -/
def Router.empty : Router := ⟨[], []⟩

/-- Python `dict` assignment `m[k] = v` on an association list: replace the
value at `k` if the key is present (keeping its position), otherwise append
the new binding. -/
def dictSet (m : List (Uri_t × Endpoint)) (k : Uri_t) (v : Endpoint) :
    List (Uri_t × Endpoint) :=
  if m.any (fun p => p.1 == k) then
    m.map (fun p => if p.1 == k then (k, v) else p)
  else
    m ++ [(k, v)]

/-- `Router.register`: scan every already-registered key with
`is_duplicated_uri`; raise `DuplicatedUriRegisteredError` if any collides
(the exception is raised before any mutation, so the error branch leaves the
state untouched); otherwise append the pattern to `uris_flexible` when it is
flexible, and insert the binding into `uri2endpoint`. -/
def Router.register (r : Router) (uri : Uri_t) (endpoint : Endpoint) :
    Except DuplicatedUriRegisteredError Router :=
  if r.uri2endpoint.any (fun p => is_duplicated_uri p.1 uri) then
    .error ⟨"Duplicated URIs were detected."⟩
  else
    .ok { uri2endpoint := dictSet r.uri2endpoint uri endpoint,
          uris_flexible :=
            if is_flexible_uri uri then r.uris_flexible ++ [uri]
            else r.uris_flexible }

/-- Python's `str.split("/")` on a character list: split on every `'/'`,
keeping empty pieces; the empty string yields `[""]`.  (Embedded by
structural recursion; `String.splitOn` has the same behaviour but does not
reduce definitionally.) -/
def splitSlashAux (acc : List Char) : List Char → List String
  | [] => [String.mk acc.reverse]
  | c :: cs =>
      if c = '/' then String.mk acc.reverse :: splitSlashAux [] cs
      else splitSlashAux (c :: acc) cs

/-- The segment sequence `Router.validate` computes from its input string:
`uri[1:].split("/")` — the first character is removed unconditionally, and
the remainder is split on `"/"` (router.py line 65). -/
def segmentsOf (uri : String) : List String :=
  splitSlashAux [] (uri.toList.drop 1)

/-- Python `==` between a request segment (a string) and a pattern segment:
equal iff the pattern segment is a literal with the same string (a string
never equals a `FlexibleLocation` object). -/
def eqLoc (s : String) : Loc → Bool
  | .lit t => s == t
  | .flex _ => false

/-- Python tuple equality between a tuple of request segments (strings) and
a pattern key: same length and every position satisfies Python `==`
(so only all-literal keys can match a segment tuple). -/
def segsMatchKey (segs : List String) (u : Uri_t) : Bool :=
  segs.length == u.length && (segs.zip u).all fun q => eqLoc q.1 q.2

/-- Python `dict.get` of `uri2endpoint` at a tuple of request segments. -/
def dictGetSegs (m : List (Uri_t × Endpoint)) (segs : List String) :
    Option Endpoint :=
  (m.find? fun p => segsMatchKey segs p.1).map (·.2)

/-- Python `dict.get` of `uri2endpoint` at a pattern key (structural tuple
equality). -/
def dictGetUri (m : List (Uri_t × Endpoint)) (k : Uri_t) : Option Endpoint :=
  (m.find? fun p => p.1 == k).map (·.2)

/-- The body of the inner per-position loop of `Router.validate`
(router.py lines 76–81), deciding whether position `(loc_req, loc_flex)`
lets the scan continue (`true`) or `break`s the candidate (`false`):

```
if loc_req == loc_flex: continue
if isinstance(loc_flex, FlexibleLocation):
    if not loc_flex.is_valid(loc_req): break
```

Note that when `loc_flex` is a literal differing from `loc_req`, control
falls through both `if`s and the loop *continues*: a differing literal does
not break the candidate. -/
def locPasses (loc_req : String) (loc_flex : Loc) : Bool :=
  if eqLoc loc_req loc_flex then true
  else
    match loc_flex with
    | .flex fl => fl.is_valid loc_req
    | .lit _ => true

/-- The inner `for ... else` of `Router.validate` over one flexible
candidate: the `else` branch runs iff no position `break`s. -/
def flexAccepts (segs : List String) (flexible : Uri_t) : Bool :=
  (segs.zip flexible).all fun p => locPasses p.1 p.2

/-- The outer scan of `Router.validate` over `uris_flexible`
(router.py lines 71–85): skip candidates of a different segment count; on
the first candidate whose inner loop completes without `break`, return
`uri2endpoint.get(flexible)` (returned as-is, even when absent). -/
def scanFlexible (m : List (Uri_t × Endpoint)) (segs : List String) :
    List Uri_t → Option Endpoint
  | [] => none
  | flexible :: rest =>
      if flexible.length != segs.length then scanFlexible m segs rest
      else if flexAccepts segs flexible then dictGetUri m flexible
      else scanFlexible m segs rest

/-- `Router.validate`: split the path into segments (dropping the first
character), try the exact-match table lookup, and fall back to the
flexible-patterns scan; `None` when nothing matches.  (A found class object
is always truthy, so `if endpoint: return endpoint` returns any found
handler.) -/
def Router.validate (r : Router) (uri : String) : Option Endpoint :=
  let segs := segmentsOf uri
  match dictGetSegs r.uri2endpoint segs with
  | some endpoint => some endpoint
  | none => scanFlexible r.uri2endpoint segs r.uris_flexible

/-- `Router.search_uris`: the patterns of all table entries whose handler is
the given one (`point is endpoint` — identity of class objects). -/
def Router.search_uris (r : Router) (endpoint : Endpoint) : List Uri_t :=
  (r.uri2endpoint.filter fun p => p.2 == endpoint).map (·.1)

/-- Router states reachable from the empty router by successful `register`
calls (`validate` and `search_uris` do not mutate the state, so they do not
contribute steps). -/
inductive Router.Reachable : Router → Prop
  | empty : Router.Reachable Router.empty
  | step {r r' : Router} {uri : Uri_t} {e : Endpoint} :
      Router.Reachable r → r.register uri e = .ok r' → Router.Reachable r'

/-! ## JSON data binding (`JsonApiData`)

`bamboo/api.py` is not among the provided sources; the model below follows
the design spec (sections 4.3–4.4) with behaviour pinned by the repository's
own tests in `src/test/api/test_json_api_data.py`.
-/

/-- A node of the Generic Value Tree (spec section 3): the decoded form of a
JSON scalar.  (The claims under verification exercise scalar and
optional/null fields; decoding of the raw bytes, spec section 4.4 steps 1–2,
is taken as given: binding consumes the already-decoded object.) -/
inductive JsonValue where
  | null
  | str (s : String)
  | num (n : Int)
  | boolean (b : Bool)
deriving DecidableEq, Repr

/-- A declared field type of a Schema Descriptor (spec section 4.3): a
scalar kind, or an optional wrapper accepting an explicit `null` in place of
a value of the wrapped kind (`Optional[T] = None` annotations in the
source's test classes). -/
inductive FieldType where
  | fString
  | fInt
  | fBool
  | fOptional (t : FieldType)
deriving DecidableEq, Repr

/-- A field of a Bound Object (spec section 3): the typed result of binding
one field; `vNone` is the declared default of an optional field bound from
absence of a value (`None` in Python). -/
inductive BoundValue where
  | vStr (s : String)
  | vInt (n : Int)
  | vBool (b : Bool)
  | vNone
deriving DecidableEq, Repr

/-- The validation failure raised by the binding engine
(`ValidationFailedError` in `bamboo/api.py`). -/
structure ValidationFailedError where
  msg : String
deriving DecidableEq, Repr

/-- Modelled from the spec: the per-field type check of the binding engine
(spec section 4.4 step 3): a scalar field requires a value of its declared
kind; an optional field accepts an explicit `null`, bound to the declared
default, and otherwise checks the wrapped kind (spec section 4.3: "optional
means may be absent, not errors are swallowed"). -/
def checkField : FieldType → JsonValue → Except ValidationFailedError BoundValue
  | .fString, .str s => .ok (.vStr s)
  | .fInt, .num n => .ok (.vInt n)
  | .fBool, .boolean b => .ok (.vBool b)
  | .fOptional _, .null => .ok .vNone
  | .fOptional t, v => checkField t v
  | _, _ => .error ⟨"type mismatch"⟩

/-- Modelled from the spec: the binding loop of `JsonApiData`
(`bamboo/api.py`, not among the provided sources).  For each declared field
in descriptor order, look the key up in the decoded input (exact,
case-sensitive name match) and check its value; keys of the input that are
not declared are never consulted (spec section 4.4 step 4).  The
field-presence rule is pinned by the repository's tests rather than by the
spec's optional-field wording: a declared key absent from the input raises
`ValidationFailedError` even when the field is optional with a default
(`TestJsonApiData.test_key_not_included` expects the error for
`{"name": "hogehoge", "Age": 30}` against `TestUnionData`, whose only
absent declared key is the optional `age`), while an explicit `null` for an
optional field binds the declared default
(`TestJsonApiData.test_union_data`). -/
def bindJson (descriptor : List (String × FieldType))
    (data : List (String × JsonValue)) :
    Except ValidationFailedError (List (String × BoundValue)) :=
  match descriptor with
  | [] => .ok []
  | (key, t) :: rest =>
      match data.lookup key with
      | none => .error ⟨"missing key: " ++ key⟩
      | some v =>
          match checkField t v with
          | .error e => .error e
          | .ok b =>
              match bindJson rest data with
              | .error e => .error e
              | .ok bs => .ok ((key, b) :: bs)

/-- The descriptor of the test class `TestUnionData`
(`src/test/api/test_json_api_data.py`): a required string `name` and an
optional integer `age` with default `None`. -/
def unionDescriptor : List (String × FieldType) :=
  [("name", FieldType.fString), ("age", FieldType.fOptional FieldType.fInt)]

/-! ## Concrete router states used by the concrete theorems below -/

/-- The flexible pattern `("a", <AnyString>)`. -/
def aFlexUri : Uri_t := [Loc.lit "a", Loc.flex .anyString]

/-- The state after `register(("a", <AnyString>), E₀)` on an empty router,
with `E₀ = 0`. -/
def rFlex : Router := ⟨[(aFlexUri, 0)], [aFlexUri]⟩

/-- `rFlex` after additionally registering the all-literal pattern
`("x", "yy")` with handler `1`. -/
def rFlexLit : Router :=
  ⟨[(aFlexUri, 0), ([Loc.lit "x", Loc.lit "yy"], 1)], [aFlexUri]⟩

/-- The state after registering the all-literal pattern `("a", "b")` with
handler `7` on an empty router. -/
def rLit : Router := ⟨[([Loc.lit "a", Loc.lit "b"], 7)], []⟩

/-- The pattern `("test", "hoge", <AnyString>)` — `PATTERNS_1` of
`TestRouting.test_duplicated_uris`. -/
def testHogeFlex : Uri_t :=
  [Loc.lit "test", Loc.lit "hoge", Loc.flex .anyString]

/-- The state after registering `testHogeFlex` with handler `0` on an empty
router. -/
def rTest : Router := ⟨[(testHogeFlex, 0)], [testHogeFlex]⟩

section SanityChecks

example : segmentsOf "/x/yy" = ["x", "yy"] := by decide
example : segmentsOf "abc/d" = ["bc", "d"] := by decide
example : segmentsOf "" = [""] := by decide

example :
    Router.empty.register [Loc.lit "a", Loc.flex .anyString] 0 =
      .ok ⟨[([Loc.lit "a", Loc.flex .anyString], 0)],
           [[Loc.lit "a", Loc.flex .anyString]]⟩ := by rfl

-- test_union_data: explicit null for the optional field binds the default
example :
    bindJson unionDescriptor [("name", .str "hogehoge"), ("age", .null)] =
      .ok [("name", .vStr "hogehoge"), ("age", .vNone)] := by rfl

-- test_key_not_included: the declared key "age" is absent, so binding fails
example :
    bindJson unionDescriptor [("name", .str "hogehoge"), ("Age", .num 30)] =
      .error ⟨"missing key: age"⟩ := by rfl

-- test_invalid_type: a non-string value for "name" fails
example :
    bindJson unionDescriptor [("name", .num 19), ("age", .num 20)] =
      .error ⟨"type mismatch"⟩ := by rfl

end SanityChecks

/-! ## Helper lemmas -/

/-- Every pattern is ambiguous with itself: at each position either the
(equal) literals compare equal, or the segment is flexible. -/
theorem is_duplicated_uri_refl (u : Uri_t) : is_duplicated_uri u u = true := by
  induction u with
  | nil => rfl
  | cons a u ih =>
    simp only [is_duplicated_uri, List.length_cons, List.zip_cons_cons,
      List.all_cons, Bool.and_eq_true, beq_iff_eq] at ih ⊢
    exact ⟨trivial, by simp, ih.2⟩

/-- If no registered key is ambiguous with `uri`, then no registered key
equals `uri`. -/
theorem no_key_eq_of_no_dup {m : List (Uri_t × Endpoint)} {uri : Uri_t}
    (h : (m.any fun p => is_duplicated_uri p.1 uri) = false) :
    (m.any fun p => p.1 == uri) = false := by
  rw [List.any_eq_false] at h ⊢
  intro p hp hbeq
  have hkey : p.1 = uri := by simpa using hbeq
  exact h p hp (by rw [hkey, is_duplicated_uri_refl])

/-- A successful `register` call appends the new binding at the end of the
table and, when the pattern is flexible, at the end of the flexible list:
the duplicate check rejected every ambiguous key, and the `dict` assignment
cannot overwrite (an existing equal key would be ambiguous with itself). -/
theorem register_ok_table {r r' : Router} {uri : Uri_t} {e : Endpoint}
    (h : r.register uri e = .ok r') :
    (r.uri2endpoint.any fun p => is_duplicated_uri p.1 uri) = false ∧
    r'.uri2endpoint = r.uri2endpoint ++ [(uri, e)] ∧
    r'.uris_flexible =
      (if is_flexible_uri uri then r.uris_flexible ++ [uri]
       else r.uris_flexible) := by
  unfold Router.register at h
  split at h
  · cases h
  next hc =>
    have hany : (r.uri2endpoint.any fun p => is_duplicated_uri p.1 uri) = false :=
      Bool.eq_false_iff.mpr hc
    have hset : dictSet r.uri2endpoint uri e = r.uri2endpoint ++ [(uri, e)] := by
      unfold dictSet
      rw [if_neg]
      rw [no_key_eq_of_no_dup hany]
      simp
    cases h
    exact ⟨hany, by rw [hset], rfl⟩

/-- In every reachable router state the table keys are pairwise distinct
(so the association list faithfully models a Python `dict`). -/
theorem reachable_keys_nodup {r : Router} (h : Router.Reachable r) :
    (r.uri2endpoint.map Prod.fst).Nodup := by
  induction h with
  | empty => simp [Router.empty]
  | step hr hok ih =>
    next r₀ r₁ uri e =>
    obtain ⟨hdup, htab, -⟩ := register_ok_table hok
    rw [htab, List.map_append]
    rw [List.nodup_append]
    refine ⟨ih, by simp, ?_⟩
    intro k hk hk'
    simp only [List.map_cons, List.map_nil, List.mem_singleton] at hk'
    subst hk'
    obtain ⟨p, hp, hfst⟩ := List.mem_map.mp hk
    rw [List.any_eq_false] at hdup
    exact hdup p hp (by rw [hfst, is_duplicated_uri_refl])

/-- In every reachable router state, every pattern of the flexible list is
a key of the table. -/
theorem reachable_flex_mem_table {r : Router} (h : Router.Reachable r) :
    ∀ u ∈ r.uris_flexible, ∃ e, (u, e) ∈ r.uri2endpoint := by
  induction h with
  | empty => simp [Router.empty]
  | step hr hok ih =>
    next r₀ r₁ uri e =>
    obtain ⟨-, htab, hflex⟩ := register_ok_table hok
    intro u hu
    rw [htab]
    rw [hflex] at hu
    have hmem : u ∈ r₀.uris_flexible ∨ u = uri := by
      split at hu
      · rcases List.mem_append.mp hu with h' | h'
        · exact Or.inl h'
        · exact Or.inr (List.mem_singleton.mp h')
      · exact Or.inl hu
    rcases hmem with h' | rfl
    · obtain ⟨e', he'⟩ := ih u h'
      exact ⟨e', List.mem_append_left _ he'⟩
    · exact ⟨e, List.mem_append_right _ (by simp)⟩

/-- `find?` returns the given element when it satisfies the predicate and
is the only member of the list doing so. -/
theorem find_first_of_unique {α : Type} {p : α → Bool} {l : List α} {a : α}
    (ha : a ∈ l) (hpa : p a = true)
    (huniq : ∀ b ∈ l, p b = true → b = a) :
    l.find? p = some a := by
  induction l with
  | nil => cases ha
  | cons x xs ih =>
    by_cases hx : p x = true
    · have hxa : x = a := huniq x (List.mem_cons_self x xs) hx
      subst hxa
      exact List.find?_cons_of_pos _ hx
    · have hxa : x ≠ a := fun hxa => hx (hxa ▸ hpa)
      have ha' : a ∈ xs := by
        rcases List.mem_cons.mp ha with h' | h'
        · exact absurd h'.symm hxa
        · exact h'
      rw [List.find?_cons_of_neg _ hx]
      exact ih ha' fun b hb hpb => huniq b (List.mem_cons_of_mem _ hb) hpb

/-- A segment tuple matches its own all-literal pattern under Python tuple
equality. -/
theorem segsMatchKey_lit (segs : List String) :
    segsMatchKey segs (segs.map Loc.lit) = true := by
  induction segs with
  | nil => rfl
  | cons s ss ih =>
    simp only [segsMatchKey, List.map_cons, List.length_cons,
      List.length_map, List.zip_cons_cons, List.all_cons, Bool.and_eq_true,
      beq_iff_eq, eqLoc] at ih ⊢
    exact ⟨trivial, by simp, ih.2⟩

/-- Conversely, the only pattern key a segment tuple can match under Python
tuple equality is its own all-literal pattern. -/
theorem eq_lit_of_segsMatchKey {segs : List String} {u : Uri_t}
    (h : segsMatchKey segs u = true) : u = segs.map Loc.lit := by
  induction segs generalizing u with
  | nil =>
    cases u with
    | nil => rfl
    | cons a us => simp [segsMatchKey] at h
  | cons s ss ih =>
    cases u with
    | nil => simp [segsMatchKey] at h
    | cons a us =>
      simp only [segsMatchKey, List.length_cons, List.zip_cons_cons,
        List.all_cons, Bool.and_eq_true, beq_iff_eq, Nat.succ.injEq] at h
      obtain ⟨hlen, hhead, htail⟩ := h
      cases a with
      | lit t =>
        have ht : s = t := by simpa [eqLoc] using hhead
        subst ht
        have hus : us = ss.map Loc.lit := by
          refine ih ?_
          simp only [segsMatchKey, Bool.and_eq_true, beq_iff_eq]
          exact ⟨hlen, htail⟩
        rw [hus]
        simp
      | flex fl => simp [eqLoc] at hhead

/-- The flexible scan skips every candidate whose segment count differs
from the request's. -/
theorem scanFlexible_none_of_length (m : List (Uri_t × Endpoint))
    (segs : List String) (l : List Uri_t)
    (h : ∀ u ∈ l, u.length ≠ segs.length) :
    scanFlexible m segs l = none := by
  induction l with
  | nil => rfl
  | cons u us ih =>
    have hne : (u.length != segs.length) = true :=
      bne_iff_ne.mpr (h u (List.mem_cons_self u us))
    simp only [scanFlexible, hne, if_true]
    exact ih fun v hv => h v (List.mem_cons_of_mem _ hv)

/-- `List.lookup` misses on a list that does not carry the key. -/
theorem lookup_eq_none_of_not_mem {k : String} {l : List (String × JsonValue)}
    (h : ∀ p ∈ l, k ≠ p.1) : l.lookup k = none := by
  induction l with
  | nil => rfl
  | cons p ps ih =>
    have hne : (k == p.1) = false :=
      beq_eq_false_iff_ne.mpr (h p (List.mem_cons_self p ps))
    simp only [List.lookup, hne]
    exact ih fun q hq => h q (List.mem_cons_of_mem _ hq)

/-- Appending entries whose keys differ from `k` does not change a
`List.lookup` of `k`. -/
theorem lookup_append_of_not_mem_right {k : String}
    {l₁ l₂ : List (String × JsonValue)} (h : ∀ p ∈ l₂, k ≠ p.1) :
    (l₁ ++ l₂).lookup k = l₁.lookup k := by
  induction l₁ with
  | nil => simpa using lookup_eq_none_of_not_mem h
  | cons p ps ih =>
    cases hbeq : (k == p.1) with
    | true => simp [List.lookup, hbeq]
    | false => simpa [List.lookup, hbeq] using ih

/-! ## The claims -/

/-- Claim C1 (code bug): the claim states that a flexible candidate whose
literal segment differs from the corresponding request segment is never
returned, matching the spec's matching rule.  The code violates this: when
`loc_flex` is a literal differing from `loc_req`, the inner loop of
`Router.validate` falls through both `if`s without `break`ing, so the
position is silently accepted.  Evaluation at the failing input: in the
reachable state holding only `("a", <AnyString>) ↦ 0`, the path `"/x/yy"`
— whose first segment `"x"` differs from the literal `"a"` — is resolved to
handler `0` instead of "not found". -/
theorem validate_returns_candidate_despite_literal_mismatch :
    Router.Reachable rFlex ∧ rFlex.validate "/x/yy" = some 0 :=
  ⟨@Router.Reachable.step Router.empty rFlex aFlexUri 0
      Router.Reachable.empty (by rfl),
   by decide⟩

/-- Claim C3 (confirmed): registering a pattern that is ambiguous (per
`is_duplicated_uri`) with some already-registered pattern raises the
duplicate-route error.  In this pure embedding the error branch returns no
new router, so the state is the unchanged input state and every previously
resolvable path trivially still resolves identically (in the source the
exception is raised before any mutation). -/
theorem register_duplicated_uri_raises (r : Router) (P₂ : Uri_t)
    (e : Endpoint) (P₁ : Uri_t)
    (h₁ : P₁ ∈ r.uri2endpoint.map Prod.fst)
    (hdup : is_duplicated_uri P₁ P₂ = true) :
    r.register P₂ e = .error ⟨"Duplicated URIs were detected."⟩ := by
  have hany : (r.uri2endpoint.any fun p => is_duplicated_uri p.1 P₂) = true := by
    rw [List.any_eq_true]
    obtain ⟨p, hp, hfst⟩ := List.mem_map.mp h₁
    exact ⟨p, hp, by rw [hfst]; exact hdup⟩
  simp [Router.register, hany]

/-- Witness for C3, mirroring `PATTERNS_1` of
`TestRouting.test_duplicated_uris`: after `("test", "hoge", <AnyString>)`
is registered, registering `("test", "hoge", "image")` raises. -/
theorem register_duplicated_uri_raises_witness :
    testHogeFlex ∈ rTest.uri2endpoint.map Prod.fst ∧
    is_duplicated_uri testHogeFlex
      [Loc.lit "test", Loc.lit "hoge", Loc.lit "image"] = true ∧
    rTest.register [Loc.lit "test", Loc.lit "hoge", Loc.lit "image"] 1 =
      .error ⟨"Duplicated URIs were detected."⟩ :=
  ⟨by decide, by decide,
   register_duplicated_uri_raises rTest
     [Loc.lit "test", Loc.lit "hoge", Loc.lit "image"] 1 testHogeFlex
     (by decide) (by decide)⟩

/-- Claim C4 (confirmed): `Router.validate` is a total function (its Lean
type `Router → String → Option Endpoint` has no failure outcome other than
the explicit `none`), and on a path whose segment count matches no
registered pattern — neither a table key nor a flexible candidate — it
returns `none` rather than raising: the exact lookup requires equal length
and the flexible scan skips every candidate of a different length. -/
theorem validate_none_of_no_matching_depth (r : Router) (uri : String)
    (hkeys : ∀ p ∈ r.uri2endpoint, p.1.length ≠ (segmentsOf uri).length)
    (hflex : ∀ u ∈ r.uris_flexible, u.length ≠ (segmentsOf uri).length) :
    r.validate uri = none := by
  have hget : dictGetSegs r.uri2endpoint (segmentsOf uri) = none := by
    unfold dictGetSegs
    have hfind : r.uri2endpoint.find?
        (fun p => segsMatchKey (segmentsOf uri) p.1) = none := by
      rw [List.find?_eq_none]
      intro p hp hmatch
      simp only [segsMatchKey, Bool.and_eq_true, beq_iff_eq] at hmatch
      exact hkeys p hp hmatch.1.symm
    rw [hfind]
    rfl
  simp only [Router.validate]
  rw [hget]
  exact scanFlexible_none_of_length _ _ _ hflex

/-- Witness for C4: `rFlex` holds only two-segment patterns; the one-segment
path `"/a"` yields `none`. -/
theorem validate_none_of_no_matching_depth_witness :
    (∀ p ∈ rFlex.uri2endpoint, p.1.length ≠ (segmentsOf "/a").length) ∧
    (∀ u ∈ rFlex.uris_flexible, u.length ≠ (segmentsOf "/a").length) ∧
    rFlex.validate "/a" = none :=
  ⟨by decide, by decide,
   validate_none_of_no_matching_depth rFlex "/a" (by decide) (by decide)⟩

/-- Claim C5 (code bug): the claim states that a successful `register` of a
non-ambiguous pattern never changes the result of `resolve` for any
previously-resolvable path.  The code violates this, as a consequence of the
same missing literal-mismatch `break` as C1: with `("a", <AnyString>) ↦ 0`
registered, `"/x/yy"` resolves (wrongly) to `0`; the all-literal pattern
`("x", "yy")` is not ambiguous with `("a", <AnyString>)` (the literals `"a"`
and `"x"` differ), so registering it with handler `1` succeeds — and
afterwards `"/x/yy"` is found by the exact-match lookup and resolves to `1`
instead of `0`. -/
theorem register_changes_prior_resolution :
    rFlex.validate "/x/yy" = some 0 ∧
    rFlex.register [Loc.lit "x", Loc.lit "yy"] 1 = .ok rFlexLit ∧
    rFlexLit.validate "/x/yy" = some 1 :=
  ⟨by decide, by rfl, by decide⟩

/-- Claim C6 (confirmed): in any reachable router state, a path whose
segment sequence (the characters after the leading separator, split on
`"/"`) equals a registered all-literal pattern `P` exactly is resolved to
`P`'s handler by the exact-match table lookup: the only table key a segment
tuple can equal is its own all-literal pattern, and reachable states have
pairwise distinct keys. -/
theorem validate_exact_literal_match (r : Router) (P : List String)
    (e : Endpoint) (uri : String) (hr : Router.Reachable r)
    (hmem : (P.map Loc.lit, e) ∈ r.uri2endpoint)
    (hsegs : segmentsOf uri = P) :
    r.validate uri = some e := by
  have hnodup := reachable_keys_nodup hr
  have hfind : r.uri2endpoint.find? (fun p => segsMatchKey P p.1) =
      some (P.map Loc.lit, e) := by
    refine find_first_of_unique hmem (segsMatchKey_lit P) ?_
    intro b hb hpb
    exact List.inj_on_of_nodup_map hnodup hb hmem (eq_lit_of_segsMatchKey hpb)
  have hget : dictGetSegs r.uri2endpoint P = some e := by
    unfold dictGetSegs
    rw [hfind]
    rfl
  simp only [Router.validate]
  rw [hsegs, hget]

/-- Witness for C6: registering the literal pattern `("a", "b")` with
handler `7` and resolving `"/a/b"`. -/
theorem validate_exact_literal_match_witness :
    Router.Reachable rLit ∧
    ([Loc.lit "a", Loc.lit "b"], 7) ∈ rLit.uri2endpoint ∧
    rLit.validate "/a/b" = some 7 :=
  ⟨@Router.Reachable.step Router.empty rLit [Loc.lit "a", Loc.lit "b"] 7
      Router.Reachable.empty (by rfl),
   by decide,
   validate_exact_literal_match rLit ["a", "b"] 7 "/a/b"
     (@Router.Reachable.step Router.empty rLit [Loc.lit "a", Loc.lit "b"] 7
        Router.Reachable.empty (by rfl))
     (by decide) (by decide)⟩

/-- Claim C8 (confirmed): a pattern is in the result of
`Router.search_uris r e` exactly when it is registered in the table with
handler `e` (handler comparison is identity of the opaque handler values);
`search_uris` is a pure function of the state, so it mutates nothing. -/
theorem search_uris_mem_iff (r : Router) (u : Uri_t) (e : Endpoint) :
    u ∈ r.search_uris e ↔ (u, e) ∈ r.uri2endpoint := by
  unfold Router.search_uris
  simp only [List.mem_map, List.mem_filter, beq_iff_eq]
  constructor
  · rintro ⟨⟨p₁, p₂⟩, ⟨hp, hpe⟩, hfst⟩
    simp only at hpe hfst
    subst hpe; subst hfst
    exact hp
  · intro h
    exact ⟨(u, e), ⟨h, rfl⟩, rfl⟩

/-- Claim C9 (confirmed): in every state reachable from the empty router,
each pattern of the flexible-patterns list is also a key of the
pattern-to-handler table, so the table lookup performed when a flexible
candidate fully matches always finds a registered handler. -/
theorem flexible_pattern_is_table_key (r : Router) (hr : Router.Reachable r)
    (u : Uri_t) (hu : u ∈ r.uris_flexible) :
    (∃ e, (u, e) ∈ r.uri2endpoint) ∧
    (dictGetUri r.uri2endpoint u).isSome = true := by
  obtain ⟨e, he⟩ := reachable_flex_mem_table hr u hu
  refine ⟨⟨e, he⟩, ?_⟩
  unfold dictGetUri
  rw [Option.isSome_map']
  exact List.find?_isSome.mpr ⟨(u, e), he, by simp⟩

/-- Witness for C9 at the reachable state `rFlex`. -/
theorem flexible_pattern_is_table_key_witness :
    Router.Reachable rFlex ∧ aFlexUri ∈ rFlex.uris_flexible ∧
    ((∃ e, (aFlexUri, e) ∈ rFlex.uri2endpoint) ∧
      (dictGetUri rFlex.uri2endpoint aFlexUri).isSome = true) :=
  ⟨@Router.Reachable.step Router.empty rFlex aFlexUri 0
      Router.Reachable.empty (by rfl),
   by decide,
   flexible_pattern_is_table_key rFlex
     (@Router.Reachable.step Router.empty rFlex aFlexUri 0
        Router.Reachable.empty (by rfl)) aFlexUri (by decide)⟩

/-- Claim C10 (confirmed): `Router.validate` computes its segment sequence
by unconditionally removing the first character of the input and splitting
the remainder on `"/"`: the input `"abc/d"`, which does not begin with the
separator, is treated as the segments `("bc", "d")` — its first character
is silently dropped — and therefore behaves exactly like `"/bc/d"` against
every router state. -/
theorem validate_drops_first_char_unconditionally (r : Router) :
    segmentsOf "abc/d" = ["bc", "d"] ∧
    r.validate "abc/d" = r.validate "/bc/d" := by
  refine ⟨by decide, ?_⟩
  simp only [Router.validate]
  rw [show segmentsOf "abc/d" = segmentsOf "/bc/d" from by decide]

/-- Claim C2, counterexample: the claim's example input
`{"name": "hogehoge", "Age": 30}` against the `TestUnionData` shape does
not bind successfully — it fails with a validation error because the
declared key `"age"` is absent from the input (exactly what
`TestJsonApiData.test_key_not_included` asserts), so the claim's assertion
that this input succeeds, binding `age` to its default, is false. -/
theorem bindJson_extra_key_example_fails :
    bindJson unionDescriptor
        [("name", JsonValue.str "hogehoge"), ("Age", JsonValue.num 30)] =
      .error ⟨"missing key: age"⟩ := by rfl

/-- Claim C2 (amended): keys of the input that are not declared in the
descriptor are never consulted by the binder: appending any entries with
undeclared keys leaves the result of `bindJson` unchanged — in particular
an extra key never, by itself, turns a success into a failure.  (What makes
the claim's example fail is not the extra `"Age"` but the absence of the
declared key `"age"`: a missing declared key fails even for an optional
field.) -/
theorem bindJson_append_undeclared_unchanged
    (descriptor : List (String × FieldType))
    (data extra : List (String × JsonValue))
    (hextra : ∀ p ∈ extra, p.1 ∉ descriptor.map Prod.fst) :
    bindJson descriptor (data ++ extra) = bindJson descriptor data := by
  induction descriptor with
  | nil => rfl
  | cons f rest ih =>
    obtain ⟨key, t⟩ := f
    have hkey : (data ++ extra).lookup key = data.lookup key := by
      refine lookup_append_of_not_mem_right ?_
      intro p hp heq
      apply hextra p hp
      simp only [List.map_cons, List.mem_cons]
      exact Or.inl heq.symm
    have hrest : bindJson rest (data ++ extra) = bindJson rest data := by
      refine ih ?_
      intro p hp hmem
      apply hextra p hp
      simp only [List.map_cons, List.mem_cons]
      exact Or.inr hmem
    simp only [bindJson, hkey, hrest]

/-- Witness for the amended C2: appending the undeclared key `"Zot"` to a
successfully binding input leaves the result unchanged. -/
theorem bindJson_append_undeclared_unchanged_witness :
    (∀ p ∈ [(("Zot" : String), JsonValue.num 1)],
      p.1 ∉ unionDescriptor.map Prod.fst) ∧
    bindJson unionDescriptor
        ([("name", JsonValue.str "x"), ("age", JsonValue.null)] ++
          [("Zot", JsonValue.num 1)]) =
      bindJson unionDescriptor
        [("name", JsonValue.str "x"), ("age", JsonValue.null)] :=
  ⟨by decide,
   bindJson_append_undeclared_unchanged unionDescriptor
     [("name", JsonValue.str "x"), ("age", JsonValue.null)]
     [("Zot", JsonValue.num 1)] (by decide)⟩

/-- Claim C7, counterexample: against the `TestUnionData` shape, an input
that omits the optional key `"age"` entirely does not bind: it fails with a
validation error (a declared key absent from the input is an error even
when the field is optional with a default, as
`TestJsonApiData.test_key_not_included` pins down), so the claim's
parenthetical "(or omits the key entirely)" is false. -/
theorem bindJson_omitted_optional_key_fails :
    bindJson unionDescriptor [("name", JsonValue.str "x")] =
      .error ⟨"missing key: age"⟩ := by rfl

/-- Claim C7 (amended): for every descriptor declaring a field optional and
every input that maps that field's key to an explicit `null`, whenever
binding succeeds the resulting Bound Object holds the declared
optional-absent default (`None`) at that field; the explicit-`null` route
never itself causes a failure (the optional check accepts `null`
directly). -/
theorem bindJson_optional_null_binds_default
    (descriptor : List (String × FieldType))
    (data : List (String × JsonValue)) (key : String) (t : FieldType)
    (b : List (String × BoundValue))
    (hmem : (key, FieldType.fOptional t) ∈ descriptor)
    (hkey : data.lookup key = some JsonValue.null)
    (hok : bindJson descriptor data = .ok b) :
    (key, BoundValue.vNone) ∈ b := by
  induction descriptor generalizing b with
  | nil => cases hmem
  | cons f rest ih =>
    obtain ⟨k₀, t₀⟩ := f
    simp only [bindJson] at hok
    rcases List.mem_cons.mp hmem with heq | hmem'
    · injection heq with hk ht
      subst hk; subst ht
      rw [hkey] at hok
      simp only [checkField] at hok
      cases hrest : bindJson rest data with
      | error err => rw [hrest] at hok; cases hok
      | ok bs =>
        rw [hrest] at hok
        injection hok with hb
        subst hb
        exact List.mem_cons_self _ _
    · cases hl : data.lookup k₀ with
      | none => simp only [hl] at hok; cases hok
      | some v =>
        cases hcf : checkField t₀ v with
        | error err => simp only [hl, hcf] at hok; cases hok
        | ok bv =>
          cases hrest : bindJson rest data with
          | error err => simp only [hl, hcf, hrest] at hok; cases hok
          | ok bs =>
            simp only [hl, hcf, hrest] at hok
            injection hok with hb
            subst hb
            exact List.mem_cons_of_mem _ (ih bs hmem' hrest)

/-- Witness for the amended C7: `{"name": "x", "age": null}` binds against
the `TestUnionData` shape, with `age` bound to the default `None`. -/
theorem bindJson_optional_null_binds_default_witness :
    bindJson unionDescriptor
        [("name", JsonValue.str "x"), ("age", JsonValue.null)] =
      .ok [("name", BoundValue.vStr "x"), ("age", BoundValue.vNone)] ∧
    ("age", BoundValue.vNone) ∈
      [(("name" : String), BoundValue.vStr "x"), ("age", BoundValue.vNone)] :=
  ⟨by rfl,
   bindJson_optional_null_binds_default unionDescriptor
     [("name", JsonValue.str "x"), ("age", JsonValue.null)] "age"
     FieldType.fInt [("name", BoundValue.vStr "x"), ("age", BoundValue.vNone)]
     (by decide) (by rfl) (by rfl)⟩
